import Mathlib

/-!
# Verification of `airflow_valohai_plugin/hooks/valohai_hook.py`

A shallow embedding of the Valohai hook: a thin sequential REST client that
resolves a project by name, optionally resolves the latest commit of a branch,
submits an execution, and polls a status endpoint until a terminal state.

HTTP traffic is modelled by an explicit environment `ApiEnv` holding the
listings the server would return, and by traces of the requests each
operation issues.  Python `None` becomes `Option`, Python dicts become
association lists, and the blocking poll loop becomes a function consuming the
finite list of successive execution-details responses the environment models.
-/

set_option autoImplicit false

namespace ValohaiPluginModel

/-! ## Data model: transient request/response payloads -/

/-- An entry of the `api/v0/projects/` listing: only the fields the hook
reads (`project['id']`, `project['name']`). -/
structure Project where
  id : Nat
  name : String
  deriving DecidableEq, Repr

/-- An entry of the `api/v0/repositories/` listing.  The hook reads
`repository['id']` and the nested `repository['project']['id']`, which we
flatten into `project_id`. -/
structure Repository where
  id : Nat
  project_id : Nat
  deriving DecidableEq, Repr

/-- An entry of the `api/v0/commits/` listing: the hook reads
`commit['repository']`, `commit['ref']` and `commit['identifier']`. -/
structure Commit where
  repository : Nat
  ref : String
  identifier : String
  deriving DecidableEq, Repr

/-- One element of the `outputs` list of an execution-details payload. -/
structure Output where
  name : String
  url : String
  deriving DecidableEq, Repr

/-- An execution-details payload: `id`, `status`, `outputs`, `urls.display`. -/
structure ExecutionDetails where
  id : Nat
  status : String
  outputs : List Output
  display_url : String
  deriving DecidableEq, Repr

/-! ## Status vocabulary (module-level constants of the source) -/

/-- `incomplete_execution_statuses = {'created', 'queued', 'started', 'stopping'}` -/
def incomplete_execution_statuses : List String :=
  ["created", "queued", "started", "stopping"]

/-- `fail_execution_statuses = {'error', 'crashed', 'stopped'}` -/
def fail_execution_statuses : List String :=
  ["error", "crashed", "stopped"]

/-- `success_execution_statuses = {'complete'}` -/
def success_execution_statuses : List String :=
  ["complete"]

/-! ## The poll loop of `submit_execution` (lines 223-237)

Each iteration sleeps `polling_period_seconds`, fetches the execution
details, and classifies the status: continue on incomplete, raise on
failure, return the details on success, raise on anything else.  The
successive responses of `get_execution_details` are modelled as a finite
list; consuming it entirely without reaching a terminal status leaves the
loop still running (`PollOutcome.exhausted`). -/

/-- An observable action of one poll iteration: the `time.sleep` call and the
details fetch for the execution id. -/
inductive PollEvent where
  | sleep (seconds : Nat)
  | fetch (execution_id : Nat)
  deriving DecidableEq, Repr

/-- How the poll loop ends: `returned` («return execution_details»),
`raised` (an `AirflowException` with the given message), or `exhausted`
(every modelled response was consumed while the status stayed incomplete,
i.e. the real loop would still be running). -/
inductive PollOutcome where
  | returned (details : ExecutionDetails)
  | raised (msg : String)
  | exhausted
  deriving DecidableEq, Repr

/-- The `while True` loop of `submit_execution`, over the successive
execution-details responses, producing the outcome and the trace of
sleep/fetch events. -/
def pollLoop (polling_period_seconds : Nat) (execution_id : Nat) :
    List ExecutionDetails → PollOutcome × List PollEvent
  | [] => (.exhausted, [])
  | execution_details :: rest =>
    let status := execution_details.status
    if status ∈ incomplete_execution_statuses then
      let r := pollLoop polling_period_seconds execution_id rest
      (r.1, .sleep polling_period_seconds :: .fetch execution_id :: r.2)
    else if status ∈ fail_execution_statuses then
      (.raised ("Execution failed with status: " ++ status),
       [.sleep polling_period_seconds, .fetch execution_id])
    else if status ∈ success_execution_statuses then
      (.returned execution_details,
       [.sleep polling_period_seconds, .fetch execution_id])
    else
      (.raised ("Found a not handled status: " ++ status),
       [.sleep polling_period_seconds, .fetch execution_id])

/-! ## Endpoints (lines 12-18)

The Python templates interpolate ids with `str.format`; we render them by
concatenation.  `str.format(None)` prints the text `None`, so an absent id is
rendered as such. -/

/-- Render a possibly-absent id the way Python `str.format` renders it. -/
def optIdStr : Option Nat → String
  | some n => toString n
  | none => "None"

def LIST_PROJECTS_ENDPOINT : String := "api/v0/projects/"

def LIST_REPOSITORIES_ENDPOINT : String := "api/v0/repositories/"

def LIST_COMMITS_ENDPOINT : String := "api/v0/commits/"

def SUBMIT_EXECUTION_ENDPOINT : String := "api/v0/executions/"

def GET_EXECUTION_DETAILS_ENDPOINT (execution_id : Nat) : String :=
  "api/v0/executions/" ++ toString execution_id ++ "/"

def FETCH_REPOSITORY_ENDPOINT (project_id : Option Nat) : String :=
  "api/v0/projects/" ++ optIdStr project_id ++ "/fetch/"

def SET_EXECUTION_TAGS_ENDPOINT (execution_id : Nat) : String :=
  "api/v0/executions/" ++ toString execution_id ++ "/tags/"

/-- `'https://{host}/{endpoint}'.format(host=..., endpoint=...)` -/
def apiUrl (host endpoint : String) : String :=
  "https://" ++ host ++ "/" ++ endpoint

/-! ## Connection and constructor (lines 71-79) -/

/-- The orchestrator connection the hook reads: `host` and the decoded
`extra` JSON object, modelled as an association list of string fields. -/
structure Connection where
  host : String
  extra_dejson : List (String × String)
  deriving DecidableEq, Repr

/-- The client object built by `__init__`: the base host, and the headers
attribute, which `__init__` leaves unset (`none`) when the connection extra
has no `token` key.  Reading an unset Python attribute raises
`AttributeError`, modelled below by `ValohaiHook.getHeaders`. -/
structure ValohaiHook where
  host : String
  headers : Option (List (String × String))
  deriving DecidableEq, Repr

/-- `__init__`: store the host; if `'token' in extra_dejson`, set
`self.headers = {'Authorization': 'Token <token>'}`, otherwise leave the
attribute unset. -/
def ValohaiHook.ofConnection (conn : Connection) : ValohaiHook :=
  { host := conn.host
    headers :=
      match conn.extra_dejson.lookup "token" with
      | some token => some [("Authorization", "Token " ++ token)]
      | none => none }

/-- A Python error surfaced by the embedding: reading the unset `headers`
attribute (`AttributeError`). -/
inductive PyErr where
  | attributeError
  deriving DecidableEq, Repr

/-- Evaluate `self.headers`: `AttributeError` when `__init__` never set it. -/
def ValohaiHook.getHeaders (h : ValohaiHook) : Except PyErr (List (String × String)) :=
  match h.headers with
  | some hdrs => .ok hdrs
  | none => .error .attributeError

/-! ## The HTTP environment and request traces

`requests` is an external collaborator: the listings and responses the
server would produce are an explicit environment, and each operation also
returns the list of HTTP requests it issued. -/

inductive HttpMethod where
  | get
  | post
  deriving DecidableEq, Repr

/-- The JSON body of a POST, when the hook sends one: the execution payload
of `submit_execution`, or `{'tags': tags}` of `add_execution_tags`. -/
inductive RequestBody (Payload : Type) where
  | empty
  | jsonPayload (p : Payload)
  | jsonTags (tags : List String)
  deriving DecidableEq, Repr

/-- The execution payload POSTed by `submit_execution` (lines 199-206).
`step`, `inputs`, `parameters` and `environment` are opaque blobs the hook
passes through unchanged. -/
structure Payload where
  project : Option Nat
  commit : Option String
  step : String
  inputs : String
  parameters : String
  environment : String
  deriving DecidableEq, Repr

/-- One HTTP request as the hook issues it: method, url, the headers taken
from `self.headers`, query params, and the JSON body if any. -/
structure HttpRequest where
  method : HttpMethod
  url : String
  headers : List (String × String)
  params : List (String × String)
  body : RequestBody Payload
  deriving DecidableEq, Repr

/-- What the modelled server would answer: the three listings, the submit
response fields the hook reads (`id`, `urls.display`), and the successive
execution-details responses of the poll loop. -/
structure ApiEnv where
  projects : List Project
  repositories : List Repository
  commits : List Commit
  fetch_response : String
  submit_id : Nat
  submit_display_url : String
  tags_response : String
  details : List ExecutionDetails
  deriving Repr

/-! ## Pure listing scans (the `for` loops of the lookup methods) -/

/-- The loop of `get_project_id` (lines 92-94): first entry whose `name`
equals the query, else fall through to `None`. -/
def project_id_of_listing : List Project → String → Option Nat
  | [], _ => none
  | project :: rest, project_name =>
    if project.name = project_name then some project.id
    else project_id_of_listing rest project_name

/-- The loop of `get_repository_id` (lines 107-109): first entry whose
embedded project id equals the given (possibly absent) project id. -/
def repository_id_of_listing : List Repository → Option Nat → Option Nat
  | [], _ => none
  | repository :: rest, project_id =>
    if some repository.project_id = project_id then some repository.id
    else repository_id_of_listing rest project_id

/-- The loop of `get_latest_commit` (lines 139-141): first commit whose
`repository` equals the (possibly absent) repository id and whose `ref`
equals the branch. -/
def commit_identifier_of_listing : List Commit → Option Nat → String → Option String
  | [], _, _ => none
  | commit :: rest, repository_id, branch =>
    if some commit.repository = repository_id ∧ commit.ref = branch then
      some commit.identifier
    else commit_identifier_of_listing rest repository_id branch

/-! ## The requests each method issues -/

/-- `requests.get(<projects url>, headers=..., params={'limit': 10000})` -/
def projectsListRequest (host : String) (hdrs : List (String × String)) : HttpRequest :=
  ⟨.get, apiUrl host LIST_PROJECTS_ENDPOINT, hdrs, [("limit", "10000")], .empty⟩

/-- `requests.get(<repositories url>, headers=..., params={'limit': 10000})` -/
def repositoriesListRequest (host : String) (hdrs : List (String × String)) : HttpRequest :=
  ⟨.get, apiUrl host LIST_REPOSITORIES_ENDPOINT, hdrs, [("limit", "10000")], .empty⟩

/-- `requests.get(<commits url>, headers=..., params={'limit': 10000, 'ordering': '-commit_time'})` -/
def commitsListRequest (host : String) (hdrs : List (String × String)) : HttpRequest :=
  ⟨.get, apiUrl host LIST_COMMITS_ENDPOINT, hdrs,
   [("limit", "10000"), ("ordering", "-commit_time")], .empty⟩

/-- `requests.post(<fetch url>, headers=...)` -/
def fetchRepositoryRequest (host : String) (hdrs : List (String × String))
    (project_id : Option Nat) : HttpRequest :=
  ⟨.post, apiUrl host (FETCH_REPOSITORY_ENDPOINT project_id), hdrs, [], .empty⟩

/-- `requests.get(<execution details url>, headers=...)` -/
def detailsRequest (host : String) (hdrs : List (String × String))
    (execution_id : Nat) : HttpRequest :=
  ⟨.get, apiUrl host (GET_EXECUTION_DETAILS_ENDPOINT execution_id), hdrs, [], .empty⟩

/-- `requests.post(<tags url>, headers=..., json={'tags': tags})` -/
def tagsRequest (host : String) (hdrs : List (String × String))
    (execution_id : Nat) (tags : List String) : HttpRequest :=
  ⟨.post, apiUrl host (SET_EXECUTION_TAGS_ENDPOINT execution_id), hdrs, [], .jsonTags tags⟩

/-- `requests.post(<executions url>, json=payload, headers=...)` -/
def submitRequest (host : String) (hdrs : List (String × String))
    (payload : Payload) : HttpRequest :=
  ⟨.post, apiUrl host SUBMIT_EXECUTION_ENDPOINT, hdrs, [], .jsonPayload payload⟩

/-! ## The API methods, each returning its result and the requests it issued

Every method evaluates `self.headers` as an argument of the `requests` call,
before any request goes out: an unset attribute raises `AttributeError` with
an empty request trace. -/

/-- `get_project_id` (lines 81-94). -/
def ValohaiHook.get_project_id (h : ValohaiHook) (env : ApiEnv) (project_name : String) :
    Except PyErr (Option Nat) × List HttpRequest :=
  match h.getHeaders with
  | .error e => (.error e, [])
  | .ok hdrs =>
    (.ok (project_id_of_listing env.projects project_name),
     [projectsListRequest h.host hdrs])

/-- `get_repository_id` (lines 96-109). -/
def ValohaiHook.get_repository_id (h : ValohaiHook) (env : ApiEnv) (project_id : Option Nat) :
    Except PyErr (Option Nat) × List HttpRequest :=
  match h.getHeaders with
  | .error e => (.error e, [])
  | .ok hdrs =>
    (.ok (repository_id_of_listing env.repositories project_id),
     [repositoriesListRequest h.host hdrs])

/-- `fetch_repository` (lines 111-125). -/
def ValohaiHook.fetch_repository (h : ValohaiHook) (env : ApiEnv) (project_id : Option Nat) :
    Except PyErr String × List HttpRequest :=
  match h.getHeaders with
  | .error e => (.error e, [])
  | .ok hdrs =>
    (.ok env.fetch_response, [fetchRepositoryRequest h.host hdrs project_id])

/-- `get_latest_commit` (lines 127-141): resolve the repository id first,
then scan the commits listing. -/
def ValohaiHook.get_latest_commit (h : ValohaiHook) (env : ApiEnv)
    (project_id : Option Nat) (branch : String) :
    Except PyErr (Option String) × List HttpRequest :=
  match h.get_repository_id env project_id with
  | (.error e, reqs) => (.error e, reqs)
  | (.ok repository_id, reqs) =>
    match h.getHeaders with
    | .error e => (.error e, reqs)
    | .ok hdrs =>
      (.ok (commit_identifier_of_listing env.commits repository_id branch),
       reqs ++ [commitsListRequest h.host hdrs])

/-- `get_execution_details` (lines 143-153); the result is the next modelled
response of the environment. -/
def ValohaiHook.get_execution_details (h : ValohaiHook) (env : ApiEnv) (execution_id : Nat) :
    Except PyErr (Option ExecutionDetails) × List HttpRequest :=
  match h.getHeaders with
  | .error e => (.error e, [])
  | .ok hdrs =>
    (.ok env.details.head?, [detailsRequest h.host hdrs execution_id])

/-- `add_execution_tags` (lines 155-166). -/
def ValohaiHook.add_execution_tags (h : ValohaiHook) (env : ApiEnv)
    (tags : List String) (execution_id : Nat) :
    Except PyErr String × List HttpRequest :=
  match h.getHeaders with
  | .error e => (.error e, [])
  | .ok hdrs =>
    (.ok env.tags_response, [tagsRequest h.host hdrs execution_id tags])

/-! ## `submit_execution` (lines 168-237) -/

/-- Python truthiness of a `str`-or-`None` argument: `None` and the empty
string are falsy. -/
def strOptTruthy : Option String → Bool
  | none => false
  | some s => s ≠ ""

/-- The commit field of the execution payload (lines 189-193, 201): when the
branch argument is truthy, the explicit commit is overridden by the latest
commit resolved for the branch; otherwise it is the commit as passed. -/
def submit_commit (env : ApiEnv) (project_id : Option Nat)
    (commit branch : Option String) : Option String :=
  if strOptTruthy branch then
    commit_identifier_of_listing env.commits
      (repository_id_of_listing env.repositories project_id) (branch.getD "")
  else commit

/-- The payload POSTed by `submit_execution` (lines 199-206). -/
def submit_payload (env : ApiEnv) (project_name step inputs parameters environment : String)
    (commit branch : Option String) : Payload :=
  let project_id := project_id_of_listing env.projects project_name
  { project := project_id
    commit := submit_commit env project_id commit branch
    step := step
    inputs := inputs
    parameters := parameters
    environment := environment }

/-- How `submit_execution` ends: `AttributeError` from the very first
`self.headers` read, an `AirflowException` raised by the poll loop, the
details returned on success, or still polling past the modelled responses. -/
inductive SubmitOutcome where
  | attributeError
  | raised (msg : String)
  | returned (details : ExecutionDetails)
  | stillRunning
  deriving DecidableEq, Repr

def submitOutcomeOfPoll : PollOutcome → SubmitOutcome
  | .returned d => .returned d
  | .raised msg => .raised msg
  | .exhausted => .stillRunning

/-- `submit_execution` (lines 168-237): resolve the project id; if a branch
was given, fetch the repository and resolve its latest commit; POST the
payload; tag the execution if tags were given; then poll.  Returns the
outcome and the full request trace. -/
def ValohaiHook.submit_execution (h : ValohaiHook) (env : ApiEnv)
    (project_name step inputs parameters environment : String)
    (commit branch : Option String) (tags : List String)
    (polling_period_seconds : Nat) : SubmitOutcome × List HttpRequest :=
  match h.headers with
  | none => (.attributeError, [])
  | some hdrs =>
    let project_id := project_id_of_listing env.projects project_name
    let branch_requests : List HttpRequest :=
      if strOptTruthy branch then
        [fetchRepositoryRequest h.host hdrs project_id,
         repositoriesListRequest h.host hdrs,
         commitsListRequest h.host hdrs]
      else []
    let payload := submit_payload env project_name step inputs parameters environment commit branch
    let execution_id := env.submit_id
    let tag_requests : List HttpRequest :=
      if tags ≠ [] then [tagsRequest h.host hdrs execution_id tags] else []
    let poll := pollLoop polling_period_seconds execution_id env.details
    let poll_requests := poll.2.filterMap fun e =>
      match e with
      | .fetch eid => some (detailsRequest h.host hdrs eid)
      | .sleep _ => none
    (submitOutcomeOfPoll poll.1,
     projectsListRequest h.host hdrs :: branch_requests ++
       [submitRequest h.host hdrs payload] ++ tag_requests ++ poll_requests)

/-! ## `download_execution_outputs` (lines 38-64)

`re.match` belongs to an external library, so the downloader is parametric
in the matcher `rematch pattern name`.  For the concrete instance the spec
exercises we model `re.match` on patterns that are a literal string after an
optional leading `^` anchor (`re.match` anchors at the start of the subject
anyway, so such a pattern matches iff the literal is a prefix of the name). -/

/-- `matchesAtStart cs ds` is true iff `cs` is a prefix of `ds`. -/
def matchesAtStart : List Char → List Char → Bool
  | [], _ => true
  | _ :: _, [] => false
  | c :: cs, d :: ds => c == d && matchesAtStart cs ds

/-- Python `bool(re.match(pattern, name))` for a pattern that is a literal
string after an optional leading `^` anchor. -/
def re_match_literal (pattern name : String) : Bool :=
  match pattern.toList with
  | '^' :: rest => matchesAtStart rest name.toList
  | cs => matchesAtStart cs name.toList

/-- The `for` loop of `download_execution_outputs` (lines 56-64): an output
whose name fails the (truthy) pattern is skipped with a log line, every
other output is retrieved from its url into `os.path.join(path, name)`.
Returns the `(url, destination)` pairs downloaded and the names skipped. -/
def download_outputs_loop (rematch : String → String → Bool) (path : String)
    (pattern : Option String) : List Output → List (String × String) × List String
  | [] => ([], [])
  | output :: rest =>
    if strOptTruthy pattern ∧ ¬ rematch (pattern.getD "") output.name then
      let r := download_outputs_loop rematch path pattern rest
      (r.1, output.name :: r.2)
    else
      let r := download_outputs_loop rematch path pattern rest
      ((output.url, path ++ "/" ++ output.name) :: r.1, r.2)

/-- `download_execution_outputs` (lines 38-64), applied to the execution
details pulled from the inter-task result store. -/
def download_execution_outputs (rematch : String → String → Bool)
    (path : String) (pattern : Option String) (execution_details : ExecutionDetails) :
    List (String × String) × List String :=
  download_outputs_loop rematch path pattern execution_details.outputs

/-! ## Sample data for concrete instantiations -/

def sampleHeaders : List (String × String) := [("Authorization", "Token t")]

def sampleHook : ValohaiHook := ⟨"app.valohai.com", some sampleHeaders⟩

def sampleEnv : ApiEnv :=
  { projects := [⟨1, "a"⟩, ⟨2, "b"⟩]
    repositories := [⟨10, 2⟩]
    commits := [⟨10, "master", "abc123"⟩, ⟨10, "dev", "def456"⟩]
    fetch_response := "ok"
    submit_id := 7
    submit_display_url := "https://app.valohai.com/e/7"
    tags_response := "ok"
    details := [⟨7, "queued", [], "u"⟩, ⟨7, "complete", [], "u"⟩] }

/-! ## Basic facts about the status vocabulary and the poll loop -/

theorem fail_not_incomplete {s : String} (h : s ∈ fail_execution_statuses) :
    s ∉ incomplete_execution_statuses := by
  fin_cases h <;> decide

theorem success_not_incomplete {s : String} (h : s ∈ success_execution_statuses) :
    s ∉ incomplete_execution_statuses := by
  fin_cases h
  decide

theorem success_not_fail {s : String} (h : s ∈ success_execution_statuses) :
    s ∉ fail_execution_statuses := by
  fin_cases h
  decide

theorem pollLoop_cons_incomplete (p eid : Nat) (d : ExecutionDetails)
    (rest : List ExecutionDetails) (h : d.status ∈ incomplete_execution_statuses) :
    pollLoop p eid (d :: rest) =
      ((pollLoop p eid rest).1,
       .sleep p :: .fetch eid :: (pollLoop p eid rest).2) := by
  simp only [pollLoop]
  rw [if_pos h]

theorem pollLoop_cons_fail (p eid : Nat) (d : ExecutionDetails)
    (rest : List ExecutionDetails) (h : d.status ∈ fail_execution_statuses) :
    pollLoop p eid (d :: rest) =
      (.raised ("Execution failed with status: " ++ d.status),
       [.sleep p, .fetch eid]) := by
  simp only [pollLoop]
  rw [if_neg (fail_not_incomplete h), if_pos h]

theorem pollLoop_cons_success (p eid : Nat) (d : ExecutionDetails)
    (rest : List ExecutionDetails) (h : d.status ∈ success_execution_statuses) :
    pollLoop p eid (d :: rest) =
      (.returned d, [.sleep p, .fetch eid]) := by
  simp only [pollLoop]
  rw [if_neg (success_not_incomplete h), if_neg (success_not_fail h), if_pos h]

theorem pollLoop_cons_unrecognized (p eid : Nat) (d : ExecutionDetails)
    (rest : List ExecutionDetails)
    (h1 : d.status ∉ incomplete_execution_statuses)
    (h2 : d.status ∉ fail_execution_statuses)
    (h3 : d.status ∉ success_execution_statuses) :
    pollLoop p eid (d :: rest) =
      (.raised ("Found a not handled status: " ++ d.status),
       [.sleep p, .fetch eid]) := by
  simp only [pollLoop]
  rw [if_neg h1, if_neg h2, if_neg h3]

/-! ## Claims C1-C4: the three-way status classification of the poll loop -/

/-- C1: for every status in the fail set `{error, crashed, stopped}`, when the
poll loop fetches details carrying that status it raises an
`AirflowException` whose message contains the status string, and does not
return a value. -/
theorem fail_status_raises_airflow_exception (p eid : Nat) (d : ExecutionDetails)
    (rest : List ExecutionDetails) (h : d.status ∈ fail_execution_statuses) :
    (pollLoop p eid (d :: rest)).1 =
        .raised ("Execution failed with status: " ++ d.status) ∧
    (∃ pre post,
        "Execution failed with status: " ++ d.status = pre ++ d.status ++ post) ∧
    ∀ d', (pollLoop p eid (d :: rest)).1 ≠ .returned d' := by
  have hcons := pollLoop_cons_fail p eid d rest h
  refine ⟨by rw [hcons], ⟨"Execution failed with status: ", "", by simp⟩, ?_⟩
  intro d' hc
  rw [hcons] at hc
  exact PollOutcome.noConfusion hc

theorem fail_status_raises_airflow_exception_witness :
    (⟨1, "error", [], "u"⟩ : ExecutionDetails).status ∈ fail_execution_statuses ∧
    ((pollLoop 30 7 [⟨1, "error", [], "u"⟩]).1 =
        .raised ("Execution failed with status: " ++
          (⟨1, "error", [], "u"⟩ : ExecutionDetails).status) ∧
     (∃ pre post,
        "Execution failed with status: " ++
            (⟨1, "error", [], "u"⟩ : ExecutionDetails).status =
          pre ++ (⟨1, "error", [], "u"⟩ : ExecutionDetails).status ++ post) ∧
     ∀ d', (pollLoop 30 7 [⟨1, "error", [], "u"⟩]).1 ≠ .returned d') :=
  ⟨by decide,
   fail_status_raises_airflow_exception 30 7 ⟨1, "error", [], "u"⟩ [] (by decide)⟩

/-- C2: when the poll loop fetches details whose status is in the success set
`{complete}`, it terminates after that single iteration and returns exactly
that details payload, unchanged. -/
theorem success_status_returns_details (p eid : Nat) (d : ExecutionDetails)
    (rest : List ExecutionDetails) (h : d.status ∈ success_execution_statuses) :
    pollLoop p eid (d :: rest) = (.returned d, [.sleep p, .fetch eid]) :=
  pollLoop_cons_success p eid d rest h

theorem success_status_returns_details_witness :
    (⟨1, "complete", [⟨"model.pkl", "u1"⟩], "u"⟩ : ExecutionDetails).status ∈
        success_execution_statuses ∧
    pollLoop 30 7
        [⟨1, "complete", [⟨"model.pkl", "u1"⟩], "u"⟩, ⟨1, "error", [], "u"⟩] =
      (.returned ⟨1, "complete", [⟨"model.pkl", "u1"⟩], "u"⟩,
       [.sleep 30, .fetch 7]) :=
  ⟨by decide,
   success_status_returns_details 30 7 ⟨1, "complete", [⟨"model.pkl", "u1"⟩], "u"⟩
     [⟨1, "error", [], "u"⟩] (by decide)⟩

/-- C3: for every status outside the three known sets, the poll loop raises a
fatal error after that single iteration, rather than retrying or returning. -/
theorem unrecognized_status_raises (p eid : Nat) (d : ExecutionDetails)
    (rest : List ExecutionDetails)
    (h1 : d.status ∉ incomplete_execution_statuses)
    (h2 : d.status ∉ fail_execution_statuses)
    (h3 : d.status ∉ success_execution_statuses) :
    pollLoop p eid (d :: rest) =
      (.raised ("Found a not handled status: " ++ d.status),
       [.sleep p, .fetch eid]) ∧
    ∀ d', (pollLoop p eid (d :: rest)).1 ≠ .returned d' := by
  have hcons := pollLoop_cons_unrecognized p eid d rest h1 h2 h3
  refine ⟨hcons, ?_⟩
  intro d' hc
  rw [hcons] at hc
  exact PollOutcome.noConfusion hc

theorem unrecognized_status_raises_witness :
    (⟨1, "unknown", [], "u"⟩ : ExecutionDetails).status ∉
        incomplete_execution_statuses ∧
    (⟨1, "unknown", [], "u"⟩ : ExecutionDetails).status ∉ fail_execution_statuses ∧
    (⟨1, "unknown", [], "u"⟩ : ExecutionDetails).status ∉
        success_execution_statuses ∧
    (pollLoop 30 7 [⟨1, "unknown", [], "u"⟩] =
        (.raised ("Found a not handled status: " ++
          (⟨1, "unknown", [], "u"⟩ : ExecutionDetails).status),
         [.sleep 30, .fetch 7]) ∧
     ∀ d', (pollLoop 30 7 [⟨1, "unknown", [], "u"⟩]).1 ≠ .returned d') :=
  ⟨by decide, by decide, by decide,
   unrecognized_status_raises 30 7 ⟨1, "unknown", [], "u"⟩ []
     (by decide) (by decide) (by decide)⟩

/-- C4: an iteration seeing an incomplete status raises nothing and hands the
outcome to the next iteration, contributing exactly one sleep of the polling
period and one further details fetch; and while every fetched status stays in
the incomplete set the loop never terminates: it consumes all the modelled
responses, sleeping and fetching once per response. -/
theorem incomplete_statuses_keep_polling (p eid : Nat) (ds : List ExecutionDetails)
    (h : ∀ d ∈ ds, d.status ∈ incomplete_execution_statuses) :
    pollLoop p eid ds =
      (.exhausted,
       (List.replicate ds.length [PollEvent.sleep p, PollEvent.fetch eid]).flatten) ∧
    ∀ (d : ExecutionDetails) (rest : List ExecutionDetails),
      d.status ∈ incomplete_execution_statuses →
        pollLoop p eid (d :: rest) =
          ((pollLoop p eid rest).1,
           .sleep p :: .fetch eid :: (pollLoop p eid rest).2) := by
  refine ⟨?_, fun d rest hd => pollLoop_cons_incomplete p eid d rest hd⟩
  induction ds with
  | nil => simp [pollLoop]
  | cons d rest ih =>
    have hd := h d (List.mem_cons_self d rest)
    have hrest := ih fun x hx => h x (List.mem_cons_of_mem d hx)
    rw [pollLoop_cons_incomplete p eid d rest hd, hrest]
    simp [List.replicate_succ]

theorem incomplete_statuses_keep_polling_witness :
    (∀ d ∈ [(⟨1, "queued", [], "u"⟩ : ExecutionDetails), ⟨1, "started", [], "u"⟩],
        d.status ∈ incomplete_execution_statuses) ∧
    (pollLoop 30 7 [(⟨1, "queued", [], "u"⟩ : ExecutionDetails), ⟨1, "started", [], "u"⟩] =
        (.exhausted,
         (List.replicate
            [(⟨1, "queued", [], "u"⟩ : ExecutionDetails), ⟨1, "started", [], "u"⟩].length
            [PollEvent.sleep 30, PollEvent.fetch 7]).flatten) ∧
     ∀ (d : ExecutionDetails) (rest : List ExecutionDetails),
        d.status ∈ incomplete_execution_statuses →
          pollLoop 30 7 (d :: rest) =
            ((pollLoop 30 7 rest).1,
             .sleep 30 :: .fetch 7 :: (pollLoop 30 7 rest).2)) :=
  ⟨by decide,
   incomplete_statuses_keep_polling 30 7
     [⟨1, "queued", [], "u"⟩, ⟨1, "started", [], "u"⟩] (by decide)⟩

/-! ## Claims C5-C7: commit override and first-match lookups -/

theorem project_id_of_listing_eq_find (l : List Project) (n : String) :
    project_id_of_listing l n =
      (l.find? fun pr => pr.name == n).map Project.id := by
  induction l with
  | nil => rfl
  | cons p rest ih =>
    by_cases hp : p.name = n
    · rw [project_id_of_listing, if_pos hp,
        List.find?_cons_of_pos _ (by simp [hp])]
      rfl
    · rw [project_id_of_listing, if_neg hp,
        List.find?_cons_of_neg _ (by simp [hp]), ih]

theorem commit_identifier_of_listing_eq_find (l : List Commit) (rid : Option Nat)
    (branch : String) :
    commit_identifier_of_listing l rid branch =
      (l.find? fun c =>
        (some c.repository == rid) && (c.ref == branch)).map Commit.identifier := by
  induction l with
  | nil => rfl
  | cons c rest ih =>
    by_cases hc : some c.repository = rid ∧ c.ref = branch
    · rw [commit_identifier_of_listing, if_pos hc,
        List.find?_cons_of_pos _ (by simp [hc.1, hc.2])]
      rfl
    · rw [commit_identifier_of_listing, if_neg hc,
        List.find?_cons_of_neg _ (by simpa [Decidable.not_and_iff_or_not] using hc), ih]

/-- C5: when a non-empty branch is given, the commit field of the POSTed
payload is the latest commit resolved for that branch (and a repository
fetch was triggered along the way), whatever commit was passed explicitly;
with no branch the payload carries the commit argument as passed.  The
payload with that commit field is the body of a POST in the trace of
`submit_execution`. -/
theorem branch_overrides_commit (h : ValohaiHook) (env : ApiEnv)
    (hdrs : List (String × String))
    (project_name step inputs parameters environment : String)
    (commit branch : Option String) (tags : List String) (p : Nat)
    (hh : h.headers = some hdrs) :
    (∀ b, branch = some b → b ≠ "" →
      (submit_payload env project_name step inputs parameters environment
          commit branch).commit =
        commit_identifier_of_listing env.commits
          (repository_id_of_listing env.repositories
            (project_id_of_listing env.projects project_name)) b ∧
      fetchRepositoryRequest h.host hdrs
          (project_id_of_listing env.projects project_name) ∈
        (h.submit_execution env project_name step inputs parameters environment
          commit branch tags p).2) ∧
    (branch = none →
      (submit_payload env project_name step inputs parameters environment
          commit branch).commit = commit) ∧
    submitRequest h.host hdrs
        (submit_payload env project_name step inputs parameters environment
          commit branch) ∈
      (h.submit_execution env project_name step inputs parameters environment
        commit branch tags p).2 := by
  refine ⟨?_, ?_, ?_⟩
  · rintro b rfl hb
    have htr : strOptTruthy (some b) = true := by simp [strOptTruthy, hb]
    constructor
    · simp [submit_payload, submit_commit, htr]
    · simp [ValohaiHook.submit_execution, hh, htr]
  · rintro rfl
    simp [submit_payload, submit_commit, strOptTruthy]
  · simp [ValohaiHook.submit_execution, hh, submit_payload]

/-- C6: `get_project_id` returns the id of the first listing entry whose
name equals the query exactly, and `None` when no entry matches. -/
theorem get_project_id_first_match (h : ValohaiHook) (env : ApiEnv)
    (hdrs : List (String × String)) (project_name : String)
    (hh : h.headers = some hdrs) :
    (h.get_project_id env project_name).1 =
      .ok ((env.projects.find? fun pr => pr.name == project_name).map Project.id) ∧
    ((∀ pr ∈ env.projects, pr.name ≠ project_name) →
      (h.get_project_id env project_name).1 = .ok none) := by
  have hscan := project_id_of_listing_eq_find env.projects project_name
  constructor
  · simp [ValohaiHook.get_project_id, ValohaiHook.getHeaders, hh, hscan]
  · intro hnone
    have : env.projects.find? (fun pr => pr.name == project_name) = none := by
      rw [List.find?_eq_none]
      intro pr hpr
      simp [hnone pr hpr]
    simp [ValohaiHook.get_project_id, ValohaiHook.getHeaders, hh, hscan, this]

/-- C7: `get_latest_commit` returns the identifier of the first commit of
the listing (which the hook requests ordered by commit time descending)
whose repository equals the repository id resolved for the project and
whose ref equals the branch, and `None` when no commit matches both. -/
theorem get_latest_commit_first_match (h : ValohaiHook) (env : ApiEnv)
    (hdrs : List (String × String)) (project_id : Option Nat) (branch : String)
    (hh : h.headers = some hdrs) :
    (h.get_latest_commit env project_id branch).1 =
      .ok ((env.commits.find? fun c =>
          (some c.repository == repository_id_of_listing env.repositories project_id) &&
          (c.ref == branch)).map Commit.identifier) ∧
    ((∀ c ∈ env.commits,
        ¬(some c.repository = repository_id_of_listing env.repositories project_id ∧
          c.ref = branch)) →
      (h.get_latest_commit env project_id branch).1 = .ok none) ∧
    (commitsListRequest h.host hdrs).params.lookup "ordering" = some "-commit_time" ∧
    commitsListRequest h.host hdrs ∈ (h.get_latest_commit env project_id branch).2 := by
  have hscan := commit_identifier_of_listing_eq_find env.commits
    (repository_id_of_listing env.repositories project_id) branch
  refine ⟨?_, ?_, by simp only [commitsListRequest]; decide, ?_⟩
  · simp [ValohaiHook.get_latest_commit, ValohaiHook.get_repository_id,
      ValohaiHook.getHeaders, hh, hscan]
  · intro hnone
    have : env.commits.find? (fun c =>
        (some c.repository == repository_id_of_listing env.repositories project_id) &&
        (c.ref == branch)) = none := by
      rw [List.find?_eq_none]
      intro c hc
      have := hnone c hc
      simp only [Bool.and_eq_true, beq_iff_eq, Option.some.injEq]
      tauto
    simp [ValohaiHook.get_latest_commit, ValohaiHook.get_repository_id,
      ValohaiHook.getHeaders, hh, hscan, this]
  · simp [ValohaiHook.get_latest_commit, ValohaiHook.get_repository_id,
      ValohaiHook.getHeaders, hh]

theorem branch_overrides_commit_witness :
    sampleHook.headers = some sampleHeaders ∧
    ((∀ b, (some "master" : Option String) = some b → b ≠ "" →
      (submit_payload sampleEnv "b" "s" "i" "pr" "e"
          (some "explicit") (some "master")).commit =
        commit_identifier_of_listing sampleEnv.commits
          (repository_id_of_listing sampleEnv.repositories
            (project_id_of_listing sampleEnv.projects "b")) b ∧
      fetchRepositoryRequest sampleHook.host sampleHeaders
          (project_id_of_listing sampleEnv.projects "b") ∈
        (sampleHook.submit_execution sampleEnv "b" "s" "i" "pr" "e"
          (some "explicit") (some "master") [] 30).2) ∧
     ((some "master" : Option String) = none →
      (submit_payload sampleEnv "b" "s" "i" "pr" "e"
          (some "explicit") (some "master")).commit = some "explicit") ∧
     submitRequest sampleHook.host sampleHeaders
        (submit_payload sampleEnv "b" "s" "i" "pr" "e"
          (some "explicit") (some "master")) ∈
      (sampleHook.submit_execution sampleEnv "b" "s" "i" "pr" "e"
        (some "explicit") (some "master") [] 30).2) :=
  ⟨rfl, branch_overrides_commit sampleHook sampleEnv sampleHeaders "b" "s" "i" "pr" "e"
    (some "explicit") (some "master") [] 30 rfl⟩

theorem get_project_id_first_match_witness :
    sampleHook.headers = some sampleHeaders ∧
    ((sampleHook.get_project_id sampleEnv "b").1 =
        .ok ((sampleEnv.projects.find? fun pr => pr.name == "b").map Project.id) ∧
     ((∀ pr ∈ sampleEnv.projects, pr.name ≠ "b") →
        (sampleHook.get_project_id sampleEnv "b").1 = .ok none)) :=
  ⟨rfl, get_project_id_first_match sampleHook sampleEnv sampleHeaders "b" rfl⟩

theorem get_latest_commit_first_match_witness :
    sampleHook.headers = some sampleHeaders ∧
    ((sampleHook.get_latest_commit sampleEnv (some 2) "master").1 =
        .ok ((sampleEnv.commits.find? fun c =>
            (some c.repository == repository_id_of_listing sampleEnv.repositories (some 2)) &&
            (c.ref == "master")).map Commit.identifier) ∧
     ((∀ c ∈ sampleEnv.commits,
        ¬(some c.repository = repository_id_of_listing sampleEnv.repositories (some 2) ∧
          c.ref = "master")) →
        (sampleHook.get_latest_commit sampleEnv (some 2) "master").1 = .ok none) ∧
     (commitsListRequest sampleHook.host sampleHeaders).params.lookup "ordering" =
        some "-commit_time" ∧
     commitsListRequest sampleHook.host sampleHeaders ∈
        (sampleHook.get_latest_commit sampleEnv (some 2) "master").2) :=
  ⟨rfl, get_latest_commit_first_match sampleHook sampleEnv sampleHeaders (some 2) "master" rfl⟩

/-! ## Claims C8-C10: the output downloader -/

theorem download_outputs_loop_matching (rematch : String → String → Bool)
    (path p : String) (hp : p ≠ "") (outs : List Output) :
    download_outputs_loop rematch path (some p) outs =
      ((outs.filter fun o => rematch p o.name).map fun o =>
          (o.url, path ++ "/" ++ o.name),
       (outs.filter fun o => !rematch p o.name).map Output.name) := by
  have htr : strOptTruthy (some p) = true := by simp [strOptTruthy, hp]
  induction outs with
  | nil => rfl
  | cons o rest ih =>
    by_cases hm : rematch p o.name
    · rw [download_outputs_loop, if_neg (by simp [htr, hm])]
      simp [List.filter_cons, hm, ih]
    · rw [download_outputs_loop, if_pos ⟨htr, by simpa using hm⟩]
      simp [List.filter_cons, hm, ih]

theorem download_outputs_loop_falsy_pattern (rematch : String → String → Bool)
    (path : String) (pattern : Option String) (hp : strOptTruthy pattern = false)
    (outs : List Output) :
    download_outputs_loop rematch path pattern outs =
      (outs.map fun o => (o.url, path ++ "/" ++ o.name), []) := by
  induction outs with
  | nil => rfl
  | cons o rest ih =>
    rw [download_outputs_loop, if_neg (by simp [hp])]
    simp [ih]

/-- C8: with a non-empty pattern, `download_execution_outputs` downloads
exactly the outputs whose name matches and skips the rest by name; with no
pattern it downloads every output; in particular, pattern `^model` against
outputs `model.pkl`, `log.txt` downloads only `model.pkl`. -/
theorem download_filters_by_pattern (rematch : String → String → Bool)
    (path p : String) (ed : ExecutionDetails) (hp : p ≠ "") :
    download_execution_outputs rematch path (some p) ed =
      ((ed.outputs.filter fun o => rematch p o.name).map fun o =>
          (o.url, path ++ "/" ++ o.name),
       (ed.outputs.filter fun o => !rematch p o.name).map Output.name) ∧
    download_execution_outputs rematch path none ed =
      (ed.outputs.map fun o => (o.url, path ++ "/" ++ o.name), []) ∧
    download_execution_outputs re_match_literal "out" (some "^model")
        ⟨1, "complete", [⟨"model.pkl", "u1"⟩, ⟨"log.txt", "u2"⟩], "u"⟩ =
      ([("u1", "out/model.pkl")], ["log.txt"]) :=
  ⟨download_outputs_loop_matching rematch path p hp ed.outputs,
   download_outputs_loop_falsy_pattern rematch path none rfl ed.outputs,
   by decide⟩

theorem download_filters_by_pattern_witness :
    ("^model" : String) ≠ "" ∧
    download_execution_outputs re_match_literal "out" (some "^model")
        ⟨1, "complete", [⟨"model.pkl", "u1"⟩, ⟨"log.txt", "u2"⟩], "u"⟩ =
      ([("u1", "out/model.pkl")], ["log.txt"]) :=
  ⟨by decide,
   (download_filters_by_pattern re_match_literal "out" "^model"
     ⟨1, "complete", [⟨"model.pkl", "u1"⟩, ⟨"log.txt", "u2"⟩], "u"⟩ (by decide)).2.2⟩

/-- C10: an empty-string pattern is falsy for the filter condition, so
`download_execution_outputs` behaves exactly as with no pattern: every
output is downloaded and none is skipped. -/
theorem empty_pattern_downloads_all (rematch : String → String → Bool)
    (path : String) (ed : ExecutionDetails) :
    download_execution_outputs rematch path (some "") ed =
      download_execution_outputs rematch path none ed ∧
    download_execution_outputs rematch path (some "") ed =
      (ed.outputs.map fun o => (o.url, path ++ "/" ++ o.name), []) ∧
    (download_execution_outputs rematch path (some "") ed).2 = [] := by
  have h1 := download_outputs_loop_falsy_pattern rematch path (some "") rfl ed.outputs
  have h2 := download_outputs_loop_falsy_pattern rematch path none rfl ed.outputs
  refine ⟨?_, h1, ?_⟩
  · rw [download_execution_outputs, download_execution_outputs, h1, h2]
  · rw [download_execution_outputs, h1]

/-! ## Claim C9: a missing token leaves the headers attribute unset -/

/-- C9: when the connection extra has no `token` key, `__init__` never sets
the headers attribute, and every API operation fails with `AttributeError`
while issuing no HTTP request at all. -/
theorem missing_token_fails_before_any_request (conn : Connection) (env : ApiEnv)
    (project_name : String) (project_id : Option Nat) (branch : String)
    (execution_id : Nat) (tags : List String)
    (step inputs parameters environment : String) (commit branch2 : Option String)
    (p : Nat) (htok : conn.extra_dejson.lookup "token" = none) :
    (ValohaiHook.ofConnection conn).headers = none ∧
    (ValohaiHook.ofConnection conn).get_project_id env project_name =
      (.error .attributeError, []) ∧
    (ValohaiHook.ofConnection conn).get_repository_id env project_id =
      (.error .attributeError, []) ∧
    (ValohaiHook.ofConnection conn).fetch_repository env project_id =
      (.error .attributeError, []) ∧
    (ValohaiHook.ofConnection conn).get_latest_commit env project_id branch =
      (.error .attributeError, []) ∧
    (ValohaiHook.ofConnection conn).get_execution_details env execution_id =
      (.error .attributeError, []) ∧
    (ValohaiHook.ofConnection conn).add_execution_tags env tags execution_id =
      (.error .attributeError, []) ∧
    (ValohaiHook.ofConnection conn).submit_execution env project_name step inputs
        parameters environment commit branch2 tags p =
      (.attributeError, []) := by
  have hh : (ValohaiHook.ofConnection conn).headers = none := by
    simp [ValohaiHook.ofConnection, htok]
  refine ⟨hh, ?_, ?_, ?_, ?_, ?_, ?_, ?_⟩ <;>
    simp [ValohaiHook.get_project_id, ValohaiHook.get_repository_id,
      ValohaiHook.fetch_repository, ValohaiHook.get_latest_commit,
      ValohaiHook.get_execution_details, ValohaiHook.add_execution_tags,
      ValohaiHook.submit_execution, ValohaiHook.getHeaders, hh]

theorem missing_token_fails_before_any_request_witness :
    (⟨"app.valohai.com", []⟩ : Connection).extra_dejson.lookup "token" = none ∧
    ((ValohaiHook.ofConnection ⟨"app.valohai.com", []⟩).headers = none ∧
     (ValohaiHook.ofConnection ⟨"app.valohai.com", []⟩).get_project_id sampleEnv "b" =
       (.error .attributeError, []) ∧
     (ValohaiHook.ofConnection ⟨"app.valohai.com", []⟩).get_repository_id sampleEnv
         (some 2) = (.error .attributeError, []) ∧
     (ValohaiHook.ofConnection ⟨"app.valohai.com", []⟩).fetch_repository sampleEnv
         (some 2) = (.error .attributeError, []) ∧
     (ValohaiHook.ofConnection ⟨"app.valohai.com", []⟩).get_latest_commit sampleEnv
         (some 2) "master" = (.error .attributeError, []) ∧
     (ValohaiHook.ofConnection ⟨"app.valohai.com", []⟩).get_execution_details
         sampleEnv 7 = (.error .attributeError, []) ∧
     (ValohaiHook.ofConnection ⟨"app.valohai.com", []⟩).add_execution_tags sampleEnv
         ["tag"] 7 = (.error .attributeError, []) ∧
     (ValohaiHook.ofConnection ⟨"app.valohai.com", []⟩).submit_execution sampleEnv
         "b" "s" "i" "pr" "e" (some "explicit") (some "master") ["tag"] 30 =
       (.attributeError, [])) :=
  ⟨rfl,
   missing_token_fails_before_any_request ⟨"app.valohai.com", []⟩ sampleEnv
     "b" (some 2) "master" 7 ["tag"] "s" "i" "pr" "e" (some "explicit")
     (some "master") 30 rfl⟩

end ValohaiPluginModel
